import Mathlib

/-!
Verification of the arducam-legacy driver (src/lib.rs).

The driver talks to two buses: an SPI register bus (the "arduchip") and an
I2C sensor bus (the OV2640).  We embed the driver shallowly: every bus
interaction is recorded as an event in a trace, and the environment (the
hardware at the other end of both buses) is a `Bus`: a family of response
functions keyed on the trace so far, including the event being answered.
Each driver operation is a function
`Bus -> List BusEvent -> Except Error A × List BusEvent`
returning the operation result and the extended trace; a failed bus
operation is still recorded in the trace (the transaction was issued).

The static OV2640 register tables live in the module ov2640_registers,
whose contents are an external data asset; they are modelled as an
uninterpreted parameter `tables : RegTable -> List (Nat × Nat)` indexed by
the names of the twelve static tables the driver references.
-/

namespace ArducamLegacy

/-- One operation inside an SPI transaction: a write of some bytes or a
read of a given number of bytes. -/
inductive SpiOp where
  | write (data : List Nat)
  | read (n : Nat)
deriving DecidableEq

/-- A bus interaction issued by the driver, as recorded in the trace. -/
inductive BusEvent where
  | spiTransaction (ops : List SpiOp)
  | i2cWrite (addr : Nat) (data : List Nat)
  | i2cWriteRead (addr : Nat) (wdata : List Nat) (rlen : Nat)
deriving DecidableEq

/-- The error enum of the driver. -/
inductive Error where
  | Spi
  | I2c
  | Pin
  | OutOfBounds
deriving DecidableEq

/-- The nine supported image resolutions. -/
inductive Resolution where
  | Res160x120
  | Res176x144
  | Res320x240
  | Res352x288
  | Res640x480
  | Res800x600
  | Res1024x768
  | Res1280x1024
  | Res1600x1200
deriving DecidableEq

/-- The image format enum (only JPEG is populated in the source). -/
inductive ImageFormat where
  | JPEG
deriving DecidableEq

/-- The environment at the other end of both buses.  Each response is a
function of the trace up to and including the event being answered.
`none` (respectively `false`) means the transport fails at that point; a
successful SPI transaction or I2C write-read yields the bytes read, as a
function from byte index to value. -/
structure Bus where
  spiResp : List BusEvent → Option (Nat → Nat)
  i2cWriteResp : List BusEvent → Bool
  i2cWriteReadResp : List BusEvent → Option (Nat → Nat)

def ARDUCHIP_TEST1 : Nat := 0x00
def ARDUCHIP_FIFO : Nat := 0x04
def ARDUCHIP_TRIG : Nat := 0x41
def OV2640_ADDR : Nat := 0x60 >>> 1
def OV2640_CHIPID_HIGH : Nat := 0x0A
def OV2640_CHIPID_LOW : Nat := 0x0B
def FIFO_CLEAR_MASK : Nat := 0x01
def FIFO_START_MASK : Nat := 0x02
def FIFO_BURST : Nat := 0x3C
def FIFO_SIZE1 : Nat := 0x42
def FIFO_SIZE2 : Nat := 0x43
def FIFO_SIZE3 : Nat := 0x44
def CAP_DONE_MASK : Nat := 0x08
def WRITE_FLAG : Nat := 0x80

/-- Sequencing of two fallible, trace-extending computations: the Lean
rendering of the `?` operator of the source. -/
def mbind {α β : Type} (x : Except Error α × List BusEvent)
    (f : α → List BusEvent → Except Error β × List BusEvent) :
    Except Error β × List BusEvent :=
  match x with
  | (Except.ok a, tr) => f a tr
  | (Except.error e, tr) => (Except.error e, tr)

/-- `self.spi.transaction(ops)`: issues one SPI transaction; on success the
bytes read by the transaction are available as a function of byte index. -/
def spiTransact (ops : List SpiOp) (bus : Bus) (tr : List BusEvent) :
    Except Error (Nat → Nat) × List BusEvent :=
  let tr1 := tr ++ [BusEvent.spiTransaction ops]
  match bus.spiResp tr1 with
  | some f => (Except.ok f, tr1)
  | none => (Except.error Error.Spi, tr1)

/-- `arduchip_write(addr, data)`: one SPI transaction of two one-byte
writes, the raw address then the data byte. -/
def arduchip_write (addr data : Nat) (bus : Bus) (tr : List BusEvent) :
    Except Error Unit × List BusEvent :=
  mbind (spiTransact [SpiOp.write [addr], SpiOp.write [data]] bus tr)
    fun _ tr1 => (Except.ok (), tr1)

/-- `arduchip_read(addr)`: one SPI transaction of a one-byte write of the
raw address then a one-byte read; returns the byte read. -/
def arduchip_read (addr : Nat) (bus : Bus) (tr : List BusEvent) :
    Except Error Nat × List BusEvent :=
  mbind (spiTransact [SpiOp.write [addr], SpiOp.read 1] bus tr)
    fun f tr1 => (Except.ok (f 0 % 256), tr1)

/-- `arduchip_write_reg(addr, data)`: register write, address framed with
the write flag set (`addr | 0x80`). -/
def arduchip_write_reg (addr data : Nat) (bus : Bus) (tr : List BusEvent) :
    Except Error Unit × List BusEvent :=
  arduchip_write (addr ||| WRITE_FLAG) data bus tr

/-- `arduchip_read_reg(addr)`: register read, address framed with the
write flag cleared (`addr & 0x7F`). -/
def arduchip_read_reg (addr : Nat) (bus : Bus) (tr : List BusEvent) :
    Except Error Nat × List BusEvent :=
  arduchip_read (addr &&& 0x7F) bus tr

/-- `sensor_writereg8_8(reg, data)`: one I2C write of the two bytes
`[reg & 0xFF, data & 0xFF]` to the sensor address. -/
def sensor_writereg8_8 (reg data : Nat) (bus : Bus) (tr : List BusEvent) :
    Except Error Unit × List BusEvent :=
  let tr1 := tr ++ [BusEvent.i2cWrite OV2640_ADDR [reg &&& 0xFF, data &&& 0xFF]]
  if bus.i2cWriteResp tr1 then (Except.ok (), tr1)
  else (Except.error Error.I2c, tr1)

/-- `sensor_writeregs8_8(regs)`: applies each (register, value) pair in
order, stopping at the first failure. -/
def sensor_writeregs8_8 :
    List (Nat × Nat) → Bus → List BusEvent → Except Error Unit × List BusEvent
  | [], _, tr => (Except.ok (), tr)
  | p :: rest, bus, tr =>
    mbind (sensor_writereg8_8 p.1 p.2 bus tr)
      fun _ tr1 => sensor_writeregs8_8 rest bus tr1

/-- `sensor_readreg8_8(reg, out)`: one I2C write-read transferring
`[reg & 0xFF]` then reading `rlen` bytes into the output slice. -/
def sensor_readreg8_8 (reg rlen : Nat) (bus : Bus) (tr : List BusEvent) :
    Except Error (List Nat) × List BusEvent :=
  let tr1 := tr ++ [BusEvent.i2cWriteRead OV2640_ADDR [reg &&& 0xFF] rlen]
  match bus.i2cWriteReadResp tr1 with
  | some f => (Except.ok ((List.range rlen).map fun i => f i % 256), tr1)
  | none => (Except.error Error.I2c, tr1)

/-- `get_sensor_chipid()`: selects sensor bank 1 then reads the high and
low chip-identity registers into a two-byte result. -/
def get_sensor_chipid (bus : Bus) (tr : List BusEvent) :
    Except Error (Nat × Nat) × List BusEvent :=
  mbind (sensor_writereg8_8 0xFF 0x01 bus tr) fun _ tr1 =>
  mbind (sensor_readreg8_8 OV2640_CHIPID_HIGH 1 bus tr1) fun hi tr2 =>
  mbind (sensor_readreg8_8 OV2640_CHIPID_LOW 1 bus tr2) fun lo tr3 =>
  (Except.ok (hi.headD 0, lo.headD 0), tr3)

/-- `is_connected()`: writes 0x52 to the scratch register, reads it back,
reads the chip id, and evaluates the source boolean expression with its
exact operator precedence: `(test == result && chipid == id1) || chipid == id2`. -/
def is_connected (bus : Bus) (tr : List BusEvent) :
    Except Error Bool × List BusEvent :=
  mbind (arduchip_write_reg ARDUCHIP_TEST1 0x52 bus tr) fun _ tr1 =>
  mbind (arduchip_read_reg ARDUCHIP_TEST1 bus tr1) fun result tr2 =>
  mbind (get_sensor_chipid bus tr2) fun chipid tr3 =>
  (Except.ok ((decide (0x52 = result) && decide (chipid = (0x26, 0x41)))
      || decide (chipid = (0x26, 0x42))), tr3)

/-- `flush_fifo()`: writes the clear mask to the FIFO control register. -/
def flush_fifo (bus : Bus) (tr : List BusEvent) :
    Except Error Unit × List BusEvent :=
  arduchip_write_reg ARDUCHIP_FIFO FIFO_CLEAR_MASK bus tr

/-- `start_fifo()`: writes the start mask to the FIFO control register. -/
def start_fifo (bus : Bus) (tr : List BusEvent) :
    Except Error Unit × List BusEvent :=
  arduchip_write_reg ARDUCHIP_FIFO FIFO_START_MASK bus tr

/-- `start_capture()`: buffer clear, then start trigger. -/
def start_capture (bus : Bus) (tr : List BusEvent) :
    Except Error Unit × List BusEvent :=
  mbind (flush_fifo bus tr) fun _ tr1 => start_fifo bus tr1

/-- `is_capture_done()`: reads the trigger register and reports whether
bit 3 is set. -/
def is_capture_done (bus : Bus) (tr : List BusEvent) :
    Except Error Bool × List BusEvent :=
  mbind (arduchip_read_reg ARDUCHIP_TRIG bus tr) fun result tr1 =>
  (Except.ok ((result &&& CAP_DONE_MASK) != 0), tr1)

/-- `read_captured_image(out)` for an output buffer of length `n`: one SPI
transaction writing the burst opcode then reading `n` bytes, followed by a
buffer clear. -/
def read_captured_image (n : Nat) (bus : Bus) (tr : List BusEvent) :
    Except Error Unit × List BusEvent :=
  mbind (spiTransact [SpiOp.write [FIFO_BURST], SpiOp.read n] bus tr)
    fun _ tr1 => flush_fifo bus tr1

/-- `get_fifo_length()`: reads the three FIFO size registers in order
(low, mid, high), masks the high byte to 7 bits, combines, and masks the
result to 0x7FFFFF. -/
def get_fifo_length (bus : Bus) (tr : List BusEvent) :
    Except Error Nat × List BusEvent :=
  mbind (arduchip_read_reg FIFO_SIZE1 bus tr) fun b0 tr1 =>
  mbind (arduchip_read_reg FIFO_SIZE2 bus tr1) fun b1 tr2 =>
  mbind (arduchip_read_reg FIFO_SIZE3 bus tr2) fun braw tr3 =>
  (Except.ok (((braw &&& 0x7F) <<< 16 ||| b1 <<< 8 ||| b0) &&& 0x7FFFFF), tr3)

/-- Modelled from the spec: the names of the twelve static register tables
in module ov2640_registers, whose file is the external static data asset
of the spec and is not part of the core source.  Tables are identified by
name; their contents are an uninterpreted parameter. -/
inductive RegTable where
  | OV2640_JPEG_INIT
  | OV2640_YUV422
  | OV2640_JPEG
  | OV2640_160x120_JPEG
  | OV2640_176x144_JPEG
  | OV2640_320x240_JPEG
  | OV2640_352x288_JPEG
  | OV2640_640x480_JPEG
  | OV2640_800x600_JPEG
  | OV2640_1024x768_JPEG
  | OV2640_1280x1024_JPEG
  | OV2640_1600x1200_JPEG
deriving DecidableEq

/-- The match of `send_resolution`: which static table each resolution
variant dispatches to. -/
def resolutionTable : Resolution → RegTable
  | Resolution.Res160x120 => RegTable.OV2640_160x120_JPEG
  | Resolution.Res1024x768 => RegTable.OV2640_1024x768_JPEG
  | Resolution.Res1280x1024 => RegTable.OV2640_1280x1024_JPEG
  | Resolution.Res1600x1200 => RegTable.OV2640_1600x1200_JPEG
  | Resolution.Res176x144 => RegTable.OV2640_176x144_JPEG
  | Resolution.Res320x240 => RegTable.OV2640_320x240_JPEG
  | Resolution.Res352x288 => RegTable.OV2640_352x288_JPEG
  | Resolution.Res640x480 => RegTable.OV2640_640x480_JPEG
  | Resolution.Res800x600 => RegTable.OV2640_800x600_JPEG

/-- `send_resolution()`: applies the table selected by the current
resolution via the bulk table write. -/
def send_resolution (tables : RegTable → List (Nat × Nat)) (res : Resolution)
    (bus : Bus) (tr : List BusEvent) : Except Error Unit × List BusEvent :=
  sensor_writeregs8_8 (tables (resolutionTable res)) bus tr

/-- `init(delay)`: the full bootstrap sequence; the delays touch no bus
and are not part of the trace. -/
def init (tables : RegTable → List (Nat × Nat)) (res : Resolution)
    (bus : Bus) (tr : List BusEvent) : Except Error Unit × List BusEvent :=
  mbind (arduchip_write_reg 0x07 0x80 bus tr) fun _ tr1 =>
  mbind (arduchip_write_reg 0x07 0x00 bus tr1) fun _ tr2 =>
  mbind (sensor_writereg8_8 0xFF 0x01 bus tr2) fun _ tr3 =>
  mbind (sensor_writereg8_8 0x12 0x80 bus tr3) fun _ tr4 =>
  mbind (sensor_writeregs8_8 (tables RegTable.OV2640_JPEG_INIT) bus tr4) fun _ tr5 =>
  mbind (sensor_writeregs8_8 (tables RegTable.OV2640_YUV422) bus tr5) fun _ tr6 =>
  mbind (sensor_writeregs8_8 (tables RegTable.OV2640_JPEG) bus tr6) fun _ tr7 =>
  mbind (sensor_writereg8_8 0xFF 0x01 bus tr7) fun _ tr8 =>
  mbind (sensor_writereg8_8 0x15 0x00 bus tr8) fun _ tr9 =>
  send_resolution tables res bus tr9

/-- The mutable facade state: current resolution and image format. -/
structure ArducamSt where
  resolution : Resolution
  format : ImageFormat
deriving DecidableEq

/-- `set_resolution(resolution)`: stores the new resolution into the
facade, then re-sends it; the stored field is updated before the bus is
touched. -/
def set_resolution (a : ArducamSt) (r : Resolution)
    (tables : RegTable → List (Nat × Nat)) (bus : Bus) (tr : List BusEvent) :
    Except Error Unit × ArducamSt × List BusEvent :=
  let a1 : ArducamSt := { a with resolution := r }
  match send_resolution tables a1.resolution bus tr with
  | (Except.ok _, tr1) => (Except.ok (), a1, tr1)
  | (Except.error e, tr1) => (Except.error e, a1, tr1)

/-- Whether the bus lets the given event, issued with the given trace
(which already includes it), succeed. -/
def eventOk (bus : Bus) (tr : List BusEvent) : BusEvent → Bool
  | BusEvent.spiTransaction _ => (bus.spiResp tr).isSome
  | BusEvent.i2cWrite _ _ => bus.i2cWriteResp tr
  | BusEvent.i2cWriteRead _ _ _ => (bus.i2cWriteReadResp tr).isSome

/-- The transport error each kind of event fails with. -/
def eventError : BusEvent → Error
  | BusEvent.spiTransaction _ => Error.Spi
  | BusEvent.i2cWrite _ _ => Error.I2c
  | BusEvent.i2cWriteRead _ _ _ => Error.I2c

/-- Generic executor for a driver operation that is a fixed sequence of
write events: issues each event in order, stopping at the first failure. -/
def runEvents (bus : Bus) : List BusEvent → List BusEvent →
    Except Error Unit × List BusEvent
  | [], tr => (Except.ok (), tr)
  | e :: rest, tr =>
    if eventOk bus (tr ++ [e]) e then runEvents bus rest (tr ++ [e])
    else (Except.error (eventError e), tr ++ [e])

/-- All events of the list, issued in order starting from the given trace,
succeed on the given bus. -/
def allOk (bus : Bus) : List BusEvent → List BusEvent → Bool
  | _, [] => true
  | tr, e :: rest => eventOk bus (tr ++ [e]) e && allOk bus (tr ++ [e]) rest

/-- The I2C write events issued by a bulk table write. -/
def regsEvents (regs : List (Nat × Nat)) : List BusEvent :=
  regs.map fun p => BusEvent.i2cWrite OV2640_ADDR [p.1 &&& 0xFF, p.2 &&& 0xFF]

/-- The full, resolution-dependent event sequence of `init`. -/
def initEvents (tables : RegTable → List (Nat × Nat)) (res : Resolution) :
    List BusEvent :=
  [BusEvent.spiTransaction [SpiOp.write [0x07 ||| WRITE_FLAG], SpiOp.write [0x80]],
   BusEvent.spiTransaction [SpiOp.write [0x07 ||| WRITE_FLAG], SpiOp.write [0x00]],
   BusEvent.i2cWrite OV2640_ADDR [0xFF &&& 0xFF, 0x01 &&& 0xFF],
   BusEvent.i2cWrite OV2640_ADDR [0x12 &&& 0xFF, 0x80 &&& 0xFF]] ++
  regsEvents (tables RegTable.OV2640_JPEG_INIT) ++
  regsEvents (tables RegTable.OV2640_YUV422) ++
  regsEvents (tables RegTable.OV2640_JPEG) ++
  [BusEvent.i2cWrite OV2640_ADDR [0xFF &&& 0xFF, 0x01 &&& 0xFF],
   BusEvent.i2cWrite OV2640_ADDR [0x15 &&& 0xFF, 0x00 &&& 0xFF]] ++
  regsEvents (tables (resolutionTable res))

theorem arduchip_write_runEvents (addr data : Nat) (bus : Bus) (tr : List BusEvent) :
    arduchip_write addr data bus tr =
      runEvents bus [BusEvent.spiTransaction [SpiOp.write [addr], SpiOp.write [data]]] tr := by
  simp only [arduchip_write, spiTransact, runEvents, eventOk, mbind]
  cases h : bus.spiResp (tr ++ [BusEvent.spiTransaction [SpiOp.write [addr], SpiOp.write [data]]]) <;>
    simp [h, eventError]

theorem arduchip_write_reg_runEvents (addr data : Nat) (bus : Bus) (tr : List BusEvent) :
    arduchip_write_reg addr data bus tr =
      runEvents bus
        [BusEvent.spiTransaction [SpiOp.write [addr ||| WRITE_FLAG], SpiOp.write [data]]] tr := by
  simp only [arduchip_write_reg]
  exact arduchip_write_runEvents (addr ||| WRITE_FLAG) data bus tr

theorem sensor_writereg8_8_runEvents (reg data : Nat) (bus : Bus) (tr : List BusEvent) :
    sensor_writereg8_8 reg data bus tr =
      runEvents bus [BusEvent.i2cWrite OV2640_ADDR [reg &&& 0xFF, data &&& 0xFF]] tr := by
  simp only [sensor_writereg8_8, runEvents, eventOk]
  cases h : bus.i2cWriteResp (tr ++ [BusEvent.i2cWrite OV2640_ADDR [reg &&& 0xFF, data &&& 0xFF]]) <;>
    simp [h, eventError]

theorem sensor_writeregs8_8_runEvents (regs : List (Nat × Nat)) (bus : Bus) (tr : List BusEvent) :
    sensor_writeregs8_8 regs bus tr = runEvents bus (regsEvents regs) tr := by
  induction regs generalizing tr with
  | nil => rfl
  | cons p rest ih =>
    simp only [sensor_writeregs8_8, regsEvents, List.map_cons]
    rw [sensor_writereg8_8_runEvents]
    simp only [runEvents, mbind]
    by_cases h : eventOk bus (tr ++ [BusEvent.i2cWrite OV2640_ADDR [p.1 &&& 0xFF, p.2 &&& 0xFF]])
        (BusEvent.i2cWrite OV2640_ADDR [p.1 &&& 0xFF, p.2 &&& 0xFF]) = true
    · simp only [h, if_pos]
      exact ih _
    · simp only [eq_false_of_ne_true h, if_neg, Bool.false_eq_true, not_false_eq_true]

theorem mbind_runEvents (bus : Bus) (l1 l2 : List BusEvent) (tr : List BusEvent) :
    mbind (runEvents bus l1 tr) (fun _ tr1 => runEvents bus l2 tr1) =
      runEvents bus (l1 ++ l2) tr := by
  induction l1 generalizing tr with
  | nil => rfl
  | cons e rest ih =>
    simp only [runEvents, List.cons_append]
    by_cases h : eventOk bus (tr ++ [e]) e = true
    · simp only [h, if_pos]
      exact ih _
    · simp only [eq_false_of_ne_true h, Bool.false_eq_true, if_neg, not_false_eq_true, mbind]

theorem send_resolution_runEvents (tables : RegTable → List (Nat × Nat)) (res : Resolution)
    (bus : Bus) (tr : List BusEvent) :
    send_resolution tables res bus tr =
      runEvents bus (regsEvents (tables (resolutionTable res))) tr := by
  simp only [send_resolution]
  exact sensor_writeregs8_8_runEvents _ bus tr

theorem init_runEvents (tables : RegTable → List (Nat × Nat)) (res : Resolution)
    (bus : Bus) (tr : List BusEvent) :
    init tables res bus tr = runEvents bus (initEvents tables res) tr := by
  simp only [init, arduchip_write_reg_runEvents, sensor_writereg8_8_runEvents,
    sensor_writeregs8_8_runEvents, send_resolution_runEvents, mbind_runEvents,
    initEvents, List.append_assoc, List.cons_append, List.singleton_append, List.nil_append]

theorem runEvents_of_allOk (bus : Bus) (evs : List BusEvent) :
    ∀ tr, allOk bus tr evs = true → runEvents bus evs tr = (Except.ok (), tr ++ evs) := by
  induction evs with
  | nil => intro tr _; simp [runEvents]
  | cons e rest ih =>
    intro tr h
    simp only [allOk, Bool.and_eq_true] at h
    simp only [runEvents, h.1, if_pos]
    rw [ih _ h.2]
    simp

theorem runEvents_ok_allOk (bus : Bus) (evs : List BusEvent) :
    ∀ tr, (runEvents bus evs tr).1 = Except.ok () → allOk bus tr evs = true := by
  induction evs with
  | nil => intro tr _; rfl
  | cons e rest ih =>
    intro tr h
    simp only [runEvents] at h
    by_cases hok : eventOk bus (tr ++ [e]) e = true
    · rw [if_pos hok] at h
      simp only [allOk, hok, Bool.true_and]
      exact ih _ h
    · rw [if_neg hok] at h
      exact absurd h (by simp)

theorem runEvents_of_fail (bus : Bus) (evs : List BusEvent) :
    ∀ tr, allOk bus tr evs = false →
      ∃ i ev, evs.take (i + 1) = evs.take i ++ [ev]
        ∧ allOk bus tr (evs.take i) = true
        ∧ eventOk bus (tr ++ evs.take i ++ [ev]) ev = false
        ∧ runEvents bus evs tr = (Except.error (eventError ev), tr ++ evs.take i ++ [ev]) := by
  induction evs with
  | nil => intro tr h; exact absurd h (by simp [allOk])
  | cons e rest ih =>
    intro tr h
    simp only [allOk, Bool.and_eq_false_iff] at h
    by_cases hok : eventOk bus (tr ++ [e]) e = true
    · have hrest : allOk bus (tr ++ [e]) rest = false := by
        rcases h with h | h
        · exact absurd hok (by simp [h])
        · exact h
      obtain ⟨i, ev, htake, hpre, hfail, hrun⟩ := ih (tr ++ [e]) hrest
      refine ⟨i + 1, ev, ?_, ?_, ?_, ?_⟩
      · simp [List.take_succ_cons, htake]
      · simp only [List.take_succ_cons, allOk, hok, Bool.true_and, hpre]
      · simpa [List.take_succ_cons, List.append_assoc] using hfail
      · simp only [runEvents, hok, if_pos, hrun, List.take_succ_cons]
        simp [List.append_assoc]
    · have hfe : eventOk bus (tr ++ [e]) e = false := eq_false_of_ne_true hok
      refine ⟨0, e, by simp, by simp [allOk], by simpa using hfe, ?_⟩
      simp only [runEvents, hfe, Bool.false_eq_true, if_neg, not_false_eq_true]
      simp

/-- A bus on which every operation succeeds, SPI reads returning 0. -/
def okBus : Bus where
  spiResp := fun _ => some fun _ => 0
  i2cWriteResp := fun _ => true
  i2cWriteReadResp := fun _ => some fun _ => 0

/-- A bus whose SPI reads all return the byte `v`. -/
def trigBus (v : Nat) : Bus where
  spiResp := fun _ => some fun _ => v
  i2cWriteResp := fun _ => true
  i2cWriteReadResp := fun _ => some fun _ => 0

/-- C4: the register-bus write primitive frames the logical address with bit
0x80 set and the read primitive frames it with bit 0x80 cleared, whatever the
address, and in particular logical 0x04 writes as 0x84 and logical 0x84 reads
as 0x04. -/
theorem arduchip_reg_address_framing :
    (∀ addr data : Nat, ∀ bus : Bus, ∀ tr : List BusEvent,
      (arduchip_write_reg addr data bus tr).2 =
        tr ++ [BusEvent.spiTransaction [SpiOp.write [addr ||| 0x80], SpiOp.write [data]]])
    ∧ (∀ addr : Nat, ∀ bus : Bus, ∀ tr : List BusEvent,
      (arduchip_read_reg addr bus tr).2 =
        tr ++ [BusEvent.spiTransaction [SpiOp.write [addr &&& 0x7F], SpiOp.read 1]])
    ∧ (0x04 : Nat) ||| 0x80 = 0x84 ∧ (0x84 : Nat) &&& 0x7F = 0x04 := by
  refine ⟨?_, ?_, by decide, by decide⟩
  · intro addr data bus tr
    simp only [arduchip_write_reg, arduchip_write, spiTransact, mbind, WRITE_FLAG]
    cases h : bus.spiResp
        (tr ++ [BusEvent.spiTransaction [SpiOp.write [addr ||| 0x80], SpiOp.write [data]]]) <;>
      simp [h]
  · intro addr bus tr
    simp only [arduchip_read_reg, arduchip_read, spiTransact, mbind]
    cases h : bus.spiResp
        (tr ++ [BusEvent.spiTransaction [SpiOp.write [addr &&& 0x7F], SpiOp.read 1]]) <;>
      simp [h]

/-- C5: is_capture_done reports exactly whether bit 3 (mask 0x08) of the byte
read from the trigger register is set: false on 0x00, 0x04, 0xF7 and true on
0x08, 0xFF. -/
theorem isCaptureDone_bit3 :
    (∀ v : Nat, v < 256 →
      (is_capture_done (trigBus v) []).1 = Except.ok ((v &&& 0x08) != 0))
    ∧ (is_capture_done (trigBus 0x00) []).1 = Except.ok false
    ∧ (is_capture_done (trigBus 0x04) []).1 = Except.ok false
    ∧ (is_capture_done (trigBus 0xF7) []).1 = Except.ok false
    ∧ (is_capture_done (trigBus 0x08) []).1 = Except.ok true
    ∧ (is_capture_done (trigBus 0xFF) []).1 = Except.ok true := by
  refine ⟨?_, by rfl, by rfl, by rfl, by rfl, by rfl⟩
  intro v hv
  simp [is_capture_done, arduchip_read_reg, arduchip_read, spiTransact, mbind, trigBus,
    CAP_DONE_MASK, Nat.mod_eq_of_lt hv]

theorem isCaptureDone_bit3_witness :
    (3 : Nat) < 256 ∧ (is_capture_done (trigBus 3) []).1 = Except.ok ((3 &&& 0x08) != 0) :=
  ⟨by decide, isCaptureDone_bit3.1 3 (by decide)⟩

/-- C9: send_resolution dispatches each of the nine resolution variants to
exactly one static table, the mapping is total by construction and injective,
and the selected table is applied through the bulk table write. -/
theorem sendResolution_dispatch :
    Function.Injective resolutionTable
    ∧ ∀ (tables : RegTable → List (Nat × Nat)) (res : Resolution) (bus : Bus)
        (tr : List BusEvent),
        send_resolution tables res bus tr =
          sensor_writeregs8_8 (tables (resolutionTable res)) bus tr := by
  constructor
  · intro x y h
    cases x <;> cases y <;> first | rfl | exact absurd h (by decide)
  · intro tables res bus tr
    rfl

theorem sendResolution_dispatch_witness :
    Resolution.Res160x120 = Resolution.Res160x120
    ∧ send_resolution (fun _ => []) Resolution.Res320x240 okBus [] =
        sensor_writeregs8_8 [] okBus [] :=
  ⟨sendResolution_dispatch.1 rfl,
   sendResolution_dispatch.2 (fun _ => []) Resolution.Res320x240 okBus []⟩

/-- C10: set_resolution stores the requested resolution into the facade before
touching the bus, so the stored field equals the request whether the table
write succeeds or fails, and the bus sees exactly the table of the new
resolution. -/
theorem setResolution_stores_unconditionally (a : ArducamSt) (r : Resolution)
    (tables : RegTable → List (Nat × Nat)) (bus : Bus) (tr : List BusEvent) :
    (set_resolution a r tables bus tr).2.1.resolution = r
    ∧ (set_resolution a r tables bus tr).2.2 = (send_resolution tables r bus tr).2 := by
  cases h : send_resolution tables r bus tr with
  | mk res tr1 => cases res <;> simp [set_resolution, h]

theorem mbind_fst_ok {α β : Type} (x : Except Error α × List BusEvent)
    (f : α → List BusEvent → Except Error β × List BusEvent) (v : β)
    (h : (mbind x f).1 = Except.ok v) :
    ∃ a tr1, x = (Except.ok a, tr1) ∧ (f a tr1).1 = Except.ok v := by
  rcases x with ⟨res, tr1⟩
  cases res with
  | ok a => exact ⟨a, tr1, rfl, h⟩
  | error e => exact absurd h (by simp [mbind])

/-- A bus that answers the first SPI read with `l`, the second with `m` and
any later one with `h`; I2C always succeeds. -/
def fifoBus (l m h : Nat) : Bus where
  spiResp := fun tr => some fun _ =>
    match tr with
    | [_] => l
    | [_, _] => m
    | _ => h
  i2cWriteResp := fun _ => true
  i2cWriteReadResp := fun _ => some fun _ => 0

/-- C2: get_fifo_length reads the three size registers in order low, mid,
high and returns ((high and 0x7F) shifted 16, or mid shifted 8, or low)
masked to 0x7FFFFF; every successful result is at most 0x7FFFFF, and raw
bytes (0xFF, 0xFF, 0xFF) decode to 0x7FFFFF. -/
theorem getFifoLength_decode :
    (∀ l m h : Nat, l < 256 → m < 256 → h < 256 →
      get_fifo_length (fifoBus l m h) [] =
        (Except.ok (((h &&& 0x7F) <<< 16 ||| m <<< 8 ||| l) &&& 0x7FFFFF),
         [BusEvent.spiTransaction [SpiOp.write [0x42], SpiOp.read 1],
          BusEvent.spiTransaction [SpiOp.write [0x43], SpiOp.read 1],
          BusEvent.spiTransaction [SpiOp.write [0x44], SpiOp.read 1]]))
    ∧ (∀ (bus : Bus) (tr : List BusEvent) (v : Nat),
        (get_fifo_length bus tr).1 = Except.ok v → v ≤ 0x7FFFFF)
    ∧ (get_fifo_length (fifoBus 0xFF 0xFF 0xFF) []).1 = Except.ok 0x7FFFFF := by
  refine ⟨?_, ?_, by rfl⟩
  · intro l m h hl hm hh
    simp [get_fifo_length, arduchip_read_reg, arduchip_read, spiTransact, mbind, fifoBus,
      FIFO_SIZE1, FIFO_SIZE2, FIFO_SIZE3, Nat.mod_eq_of_lt hl, Nat.mod_eq_of_lt hm,
      Nat.mod_eq_of_lt hh]
    decide
  · intro bus tr v hv
    unfold get_fifo_length at hv
    obtain ⟨b0, tr1, _, hv⟩ := mbind_fst_ok _ _ _ hv
    obtain ⟨b1, tr2, _, hv⟩ := mbind_fst_ok _ _ _ hv
    obtain ⟨braw, tr3, _, hv⟩ := mbind_fst_ok _ _ _ hv
    simp only [Except.ok.injEq] at hv
    exact hv ▸ Nat.and_le_right

theorem getFifoLength_decode_witness :
    ((1 : Nat) < 256 ∧ (2 : Nat) < 256 ∧ (3 : Nat) < 256)
    ∧ get_fifo_length (fifoBus 1 2 3) [] =
        (Except.ok (((3 &&& 0x7F) <<< 16 ||| 2 <<< 8 ||| 1) &&& 0x7FFFFF),
         [BusEvent.spiTransaction [SpiOp.write [0x42], SpiOp.read 1],
          BusEvent.spiTransaction [SpiOp.write [0x43], SpiOp.read 1],
          BusEvent.spiTransaction [SpiOp.write [0x44], SpiOp.read 1]])
    ∧ 0x030201 ≤ 0x7FFFFF :=
  ⟨⟨by decide, by decide, by decide⟩,
   getFifoLength_decode.1 1 2 3 (by decide) (by decide) (by decide),
   getFifoLength_decode.2.1 (fifoBus 1 2 3) [] 0x030201 (by rfl)⟩

/-- The buffer-clear register write, as it appears on the bus. -/
def fifoClearEv : BusEvent :=
  BusEvent.spiTransaction
    [SpiOp.write [ARDUCHIP_FIFO ||| WRITE_FLAG], SpiOp.write [FIFO_CLEAR_MASK]]

/-- The start-trigger register write, as it appears on the bus. -/
def fifoStartEv : BusEvent :=
  BusEvent.spiTransaction
    [SpiOp.write [ARDUCHIP_FIFO ||| WRITE_FLAG], SpiOp.write [FIFO_START_MASK]]

/-- The burst-read transaction for an output buffer of length n. -/
def burstEv (n : Nat) : BusEvent :=
  BusEvent.spiTransaction [SpiOp.write [FIFO_BURST], SpiOp.read n]

/-- C3: read_captured_image with an N-byte buffer issues exactly one SPI
transaction, a write of the burst opcode 0x3C followed by a read of exactly
N bytes, and when that transaction goes through it re-issues the
buffer-clear command as the next and last bus event. -/
theorem readCapturedImage_shape (n : Nat) (bus : Bus) (tr : List BusEvent) :
    (bus.spiResp (tr ++ [burstEv n]) = none →
      read_captured_image n bus tr = (Except.error Error.Spi, tr ++ [burstEv n]))
    ∧ (∀ f, bus.spiResp (tr ++ [burstEv n]) = some f →
        (read_captured_image n bus tr).2 = tr ++ [burstEv n, fifoClearEv]) := by
  constructor
  · intro h
    simp [read_captured_image, spiTransact, mbind, burstEv] at h ⊢
    simp [h]
  · intro f h
    simp only [read_captured_image, spiTransact, mbind, burstEv] at h ⊢
    simp only [h]
    simp only [flush_fifo, arduchip_write_reg, arduchip_write, spiTransact, mbind]
    cases h2 : bus.spiResp ((tr ++ [BusEvent.spiTransaction [SpiOp.write [FIFO_BURST], SpiOp.read n]]) ++
        [BusEvent.spiTransaction [SpiOp.write [ARDUCHIP_FIFO ||| WRITE_FLAG],
          SpiOp.write [FIFO_CLEAR_MASK]]]) <;>
      simp [h2, fifoClearEv]

theorem readCapturedImage_shape_witness :
    okBus.spiResp ([] ++ [burstEv 0]) = some (fun _ => 0)
    ∧ (read_captured_image 0 okBus []).2 = [] ++ [burstEv 0, fifoClearEv] :=
  ⟨rfl, (readCapturedImage_shape 0 okBus []).2 (fun _ => 0) rfl⟩

/-- C8: start_capture writes the clear mask then the start mask to the FIFO
control register; if the first write fails the second is never issued and
the error surfaces, and after a successful first write the call succeeds
exactly when the second write does. -/
theorem startCapture_clear_then_start (bus : Bus) (tr : List BusEvent) :
    (bus.spiResp (tr ++ [fifoClearEv]) = none →
      start_capture bus tr = (Except.error Error.Spi, tr ++ [fifoClearEv]))
    ∧ (∀ f, bus.spiResp (tr ++ [fifoClearEv]) = some f →
        (start_capture bus tr).2 = tr ++ [fifoClearEv, fifoStartEv]
        ∧ ((start_capture bus tr).1 = Except.ok () ↔
            (bus.spiResp (tr ++ [fifoClearEv, fifoStartEv])).isSome = true)) := by
  constructor
  · intro h
    simp only [start_capture, flush_fifo, start_fifo, arduchip_write_reg, arduchip_write,
      spiTransact, mbind, fifoClearEv] at h ⊢
    simp [h]
  · intro f h
    simp only [start_capture, flush_fifo, start_fifo, arduchip_write_reg, arduchip_write,
      spiTransact, mbind, fifoClearEv, fifoStartEv] at h ⊢
    simp only [h]
    cases h2 : bus.spiResp ((tr ++ [BusEvent.spiTransaction [SpiOp.write [ARDUCHIP_FIFO ||| WRITE_FLAG],
        SpiOp.write [FIFO_CLEAR_MASK]]]) ++
        [BusEvent.spiTransaction [SpiOp.write [ARDUCHIP_FIFO ||| WRITE_FLAG],
          SpiOp.write [FIFO_START_MASK]]]) <;>
      simp_all [List.append_assoc]

theorem startCapture_clear_then_start_witness :
    okBus.spiResp ([] ++ [fifoClearEv]) = some (fun _ => 0)
    ∧ (start_capture okBus []).2 = [] ++ [fifoClearEv, fifoStartEv]
    ∧ ((start_capture okBus []).1 = Except.ok () ↔
        (okBus.spiResp ([] ++ [fifoClearEv, fifoStartEv])).isSome = true) :=
  ⟨rfl, (startCapture_clear_then_start okBus []).2 (fun _ => 0) rfl⟩

/-- C7: the bulk table write applies the pairs in table order; it succeeds
exactly when every pair is written, the events it issues are the writes of
the pairs in order, and on the first failing pair it stops with that
failure, having issued exactly the writes of the earlier pairs plus the
failing one. -/
theorem writeTable_first_failure (regs : List (Nat × Nat)) (bus : Bus) (tr : List BusEvent) :
    ((sensor_writeregs8_8 regs bus tr = (Except.ok (), tr ++ regsEvents regs)) ↔
      allOk bus tr (regsEvents regs) = true)
    ∧ (∀ k, (regsEvents regs).take k = regsEvents (regs.take k))
    ∧ (allOk bus tr (regsEvents regs) = false →
        ∃ i ev, (regsEvents regs).take (i + 1) = (regsEvents regs).take i ++ [ev]
          ∧ allOk bus tr ((regsEvents regs).take i) = true
          ∧ eventOk bus (tr ++ (regsEvents regs).take i ++ [ev]) ev = false
          ∧ sensor_writeregs8_8 regs bus tr =
              (Except.error (eventError ev), tr ++ (regsEvents regs).take i ++ [ev])) := by
  refine ⟨⟨?_, ?_⟩, ?_, ?_⟩
  · intro h
    exact runEvents_ok_allOk bus (regsEvents regs) tr
      (by rw [← sensor_writeregs8_8_runEvents, h])
  · intro h
    rw [sensor_writeregs8_8_runEvents]
    exact runEvents_of_allOk bus (regsEvents regs) tr h
  · intro k
    simp [regsEvents, List.map_take]
  · intro h
    rw [sensor_writeregs8_8_runEvents]
    exact runEvents_of_fail bus (regsEvents regs) tr h

/-- A bus whose I2C writes succeed only while the trace has at most one
event: the second I2C write fails. -/
def failSecondBus : Bus where
  spiResp := fun _ => some fun _ => 0
  i2cWriteResp := fun tr => decide (tr.length ≤ 1)
  i2cWriteReadResp := fun _ => some fun _ => 0

theorem writeTable_first_failure_witness :
    ∃ i ev,
      (regsEvents [(1, 2), (3, 4), (5, 6)]).take (i + 1) =
        (regsEvents [(1, 2), (3, 4), (5, 6)]).take i ++ [ev]
      ∧ allOk failSecondBus [] ((regsEvents [(1, 2), (3, 4), (5, 6)]).take i) = true
      ∧ eventOk failSecondBus ([] ++ (regsEvents [(1, 2), (3, 4), (5, 6)]).take i ++ [ev]) ev = false
      ∧ sensor_writeregs8_8 [(1, 2), (3, 4), (5, 6)] failSecondBus [] =
          (Except.error (eventError ev),
           [] ++ (regsEvents [(1, 2), (3, 4), (5, 6)]).take i ++ [ev]) :=
  (writeTable_first_failure [(1, 2), (3, 4), (5, 6)] failSecondBus []).2.2 (by decide)

/-- C6: init succeeds exactly when every bus operation of its fixed
sequence succeeds, in which case the bus saw exactly that sequence; and if
some operation fails, init stops right there, surfacing that operation's
transport error, the trace ending at the failing operation. -/
theorem init_aborts_on_first_failure (tables : RegTable → List (Nat × Nat))
    (res : Resolution) (bus : Bus) (tr : List BusEvent) :
    ((init tables res bus tr = (Except.ok (), tr ++ initEvents tables res)) ↔
      allOk bus tr (initEvents tables res) = true)
    ∧ (allOk bus tr (initEvents tables res) = false →
        ∃ i ev, (initEvents tables res).take (i + 1) = (initEvents tables res).take i ++ [ev]
          ∧ allOk bus tr ((initEvents tables res).take i) = true
          ∧ eventOk bus (tr ++ (initEvents tables res).take i ++ [ev]) ev = false
          ∧ init tables res bus tr =
              (Except.error (eventError ev), tr ++ (initEvents tables res).take i ++ [ev])) := by
  rw [init_runEvents]
  refine ⟨⟨?_, ?_⟩, ?_⟩
  · intro h
    exact runEvents_ok_allOk bus _ tr (by rw [h])
  · intro h
    exact runEvents_of_allOk bus _ tr h
  · intro h
    exact runEvents_of_fail bus _ tr h

/-- Empty register tables, for concrete instantiation. -/
def emptyTables : RegTable → List (Nat × Nat) := fun _ => []

/-- A bus whose I2C writes succeed only while the trace has at most three
events: the fourth bus operation of init (the second sensor write) fails. -/
def failFourthBus : Bus where
  spiResp := fun _ => some fun _ => 0
  i2cWriteResp := fun tr => decide (tr.length ≤ 3)
  i2cWriteReadResp := fun _ => some fun _ => 0

theorem init_aborts_on_first_failure_witness :
    ∃ i ev,
      (initEvents emptyTables Resolution.Res320x240).take (i + 1) =
        (initEvents emptyTables Resolution.Res320x240).take i ++ [ev]
      ∧ allOk failFourthBus [] ((initEvents emptyTables Resolution.Res320x240).take i) = true
      ∧ eventOk failFourthBus
          ([] ++ (initEvents emptyTables Resolution.Res320x240).take i ++ [ev]) ev = false
      ∧ init emptyTables Resolution.Res320x240 failFourthBus [] =
          (Except.error (eventError ev),
           [] ++ (initEvents emptyTables Resolution.Res320x240).take i ++ [ev]) :=
  (init_aborts_on_first_failure emptyTables Resolution.Res320x240 failFourthBus []).2 (by decide)

/-- A bus on which the scratch-register readback returns 0x00 (not the test
pattern 0x52) while the sensor chip id reads back as (0x26, 0x42). -/
def bugBus : Bus where
  spiResp := fun _ => some fun _ => 0x00
  i2cWriteResp := fun _ => true
  i2cWriteReadResp := fun tr => some fun _ => if tr.length = 4 then 0x26 else 0x42

/-- C1: on a bus whose scratch readback is 0x00 (so the written test
pattern 0x52 does not match) and whose chip identity reads (0x26, 0x42),
is_connected nevertheless returns Ok true: the source condition
`a == b && c == d1 || c == d2` groups as `(a == b && c == d1) || c == d2`,
so the second identity pair alone satisfies it. -/
theorem isConnected_precedence_failing_input :
    (is_connected bugBus []).1 = Except.ok true
    ∧ (arduchip_read_reg ARDUCHIP_TEST1 bugBus
        [BusEvent.spiTransaction
          [SpiOp.write [ARDUCHIP_TEST1 ||| WRITE_FLAG], SpiOp.write [0x52]]]).1 =
        Except.ok 0x00 := by
  exact ⟨rfl, rfl⟩

end ArducamLegacy
